import Mathlib

/-!
Verification development for the tempo-playlist builder
(`sporkify`): a shallow embedding in Lean 4 of the program's core logic,
translated from the JavaScript source, together with theorems settling the
specification's claims about it.

Embedded components:
* the tempo matcher (`filterTracksByTempo` / the accept test inside
  `processTrackForSelection`), over exact rationals;
* the three-tier BPM oracle (`getTrackBPMWithGemini`) with its per-tier
  try/catch structure, text parsing, validity test, cancellation checks and
  diagnostic events;
* the rolling-window scheduler of `fetchTemposForTracksWithGemini`
  (promise completion modelled as a nondeterministic step relation);
* the authenticated request wrapper `spGet` with its 401-refresh and
  429-backoff retry behaviour (server responses supplied as an explicit
  list);
* the pagination loops `loadPlaylists` and `getAllSavedTracks`;
* the scan-session accumulation (`selectedTracks` / `currentDurationMs`).
-/

namespace Sporkify

/-! ## Tempo matcher

Translated from `filterTracksByTempo` (part_002 lines 494-539) and the
accept test inside `processTrackForSelection` (part_002 lines 1188-1234).
Tempos are exact rationals: JavaScript BPM values may carry one decimal
place and the matcher divides by 2, both exact in ℚ for the values the
oracle produces. -/

/-- A track as the filter sees it: its id and the fields carried along by
the object spread `{...track}`. -/
structure Track where
  id : Nat
  uri : Nat
  deriving DecidableEq, Repr

/-- Variant tag attached to a match: `"original"`, `"half-time"` or
`"double-time"` in the source. -/
inductive TempoType where
  | original
  | halfTime
  | doubleTime
  deriving DecidableEq, Repr

/-- The enriched track produced by the `.map` phase of
`filterTracksByTempo`: `{...track, tempo, originalTempo, tempoType}`. -/
structure MatchResult where
  track : Track
  tempo : ℚ
  originalTempo : ℚ
  tempoType : TempoType
  deriving DecidableEq, Repr

/-- `x >= minBpm && x <= maxBpm`: the inclusive range test used for every
candidate. -/
def inRange (x minBpm maxBpm : ℚ) : Bool :=
  minBpm ≤ x && x ≤ maxBpm

/-- The `.filter` predicate of `filterTracksByTempo`: `!tempo` is the
JavaScript falsy test (the tempo is absent, or is the number 0); otherwise
accept iff the original, half-time or double-time value is in range. -/
def filterPred (tempos : Nat → Option ℚ) (minBpm maxBpm : ℚ) (track : Track) : Bool :=
  match tempos track.id with
  | none => false
  | some tempo =>
    if tempo = 0 then false
    else
      inRange tempo minBpm maxBpm
        || inRange (tempo / 2) minBpm maxBpm
        || inRange (tempo * 2) minBpm maxBpm

/-- The `.map` phase of `filterTracksByTempo`: pick the display tempo and
variant tag, preferring the original value, then half-time, then
double-time; the original raw tempo is carried in `originalTempo`.
(`tempos track.id` is known present on the filtered list; `getD 0`
supplies the impossible default.) -/
def mapTrack (tempos : Nat → Option ℚ) (minBpm maxBpm : ℚ) (track : Track) : MatchResult :=
  let originalTempo := (tempos track.id).getD 0
  let halfTime := originalTempo / 2
  let doubleTime := originalTempo * 2
  if inRange originalTempo minBpm maxBpm then
    ⟨track, originalTempo, originalTempo, .original⟩
  else if inRange halfTime minBpm maxBpm then
    ⟨track, halfTime, originalTempo, .halfTime⟩
  else if inRange doubleTime minBpm maxBpm then
    ⟨track, doubleTime, originalTempo, .doubleTime⟩
  else
    ⟨track, originalTempo, originalTempo, .original⟩

/-- `filterTracksByTempo(tracks, tempos, [minBpm, maxBpm])`:
`tracks.filter(...).map(...)` exactly as in the source. -/
def filterTracksByTempo (tracks : List Track) (tempos : Nat → Option ℚ)
    (minBpm maxBpm : ℚ) : List MatchResult :=
  (tracks.filter (filterPred tempos minBpm maxBpm)).map (mapTrack tempos minBpm maxBpm)

/-- The accept test inside `processTrackForSelection` (part_002 lines
1192-1218, repeated verbatim in the saved-tracks loop at lines
1421-1447): `bpm` is known non-null here; the same three-candidate range
check decides acceptance, and the same priority picks the display tempo
and variant tag. -/
def processTrackDecision (bpm minTempo maxTempo : ℚ) : Option (ℚ × TempoType) :=
  if inRange bpm minTempo maxTempo ∨ inRange (bpm / 2) minTempo maxTempo ∨
      inRange (bpm * 2) minTempo maxTempo then
    if inRange bpm minTempo maxTempo then some (bpm, .original)
    else if inRange (bpm / 2) minTempo maxTempo then some (bpm / 2, .halfTime)
    else if inRange (bpm * 2) minTempo maxTempo then some (bpm * 2, .doubleTime)
    else some (bpm, .original)
  else none

/-- How many of the three candidate values `t`, `t/2`, `t*2` lie in the
inclusive range — used to check the exactly-one claim. -/
def candidatesInRange (t minBpm maxBpm : ℚ) : Nat :=
  (if inRange t minBpm maxBpm then 1 else 0)
    + (if inRange (t / 2) minBpm maxBpm then 1 else 0)
    + (if inRange (t * 2) minBpm maxBpm then 1 else 0)

/-! ## Rolling-window scheduler

Translated from `fetchTemposForTracksWithGemini` (part_002 lines
422-491).  The JavaScript keeps a `Set` of in-flight `processTrack`
promises.  The initial synchronous loop starts `min n 30` promises, each
with a `.finally` handler that deletes the settled promise and starts the
next track; that next promise only gets a bare
`nextPromise.finally(() => activePromises.delete(nextPromise))` — a
delete handler without a refill step.  We model one in-flight promise by
the Boolean "carries the refill handler", and promise settlement order as
a nondeterministic choice of which in-flight entry settles next.  The
claims quantify over executions without cancellation, so the
`abortSignal` early exits (which only ever stop work sooner) are not
modelled. -/

/-- `const maxConcurrent = 30`. -/
def maxConcurrent : Nat := 30

/-- Scheduler state: `currentIndex` (the next not-yet-started item, which
also counts how many items have been started) and the in-flight promises,
each recorded as whether its `.finally` handler refills the window. -/
structure SchedState where
  currentIndex : Nat
  active : List Bool
  deriving DecidableEq, Repr

/-- The state after the initial synchronous `while` loop: `min n 30`
promises started, each carrying the refill handler. -/
def initialSched (n : Nat) : SchedState :=
  ⟨min n maxConcurrent, List.replicate (min n maxConcurrent) true⟩

/-- One settlement event: the in-flight promise at position `i` settles
and its `.finally` runs — delete it, and, only if it carries the refill
handler and items remain, start the next item as a promise whose handler
does not refill. -/
def schedStep (n : Nat) (s : SchedState) (i : Nat) : SchedState :=
  if h : i < s.active.length then
    if s.active.get ⟨i, h⟩ = true ∧ s.currentIndex < n then
      ⟨s.currentIndex + 1, s.active.eraseIdx i ++ [false]⟩
    else
      ⟨s.currentIndex, s.active.eraseIdx i⟩
  else s

/-- Run the scheduler on input size `n` under an arbitrary settlement
order (out-of-range choices are no-ops). -/
def runSched (n : Nat) (choices : List Nat) : SchedState :=
  choices.foldl (schedStep n) (initialSched n)

/-- The FIFO execution: the oldest in-flight promise always settles
first; `fuel` settlement events. -/
def drainSched (n : Nat) : Nat → SchedState
  | 0 => initialSched n
  | fuel + 1 => schedStep n (drainSched n fuel) 0

/-! ## Three-tier BPM oracle

Translated from `getTrackBPMWithGemini` (part_002 lines 56-420; the
part_003 copy differs only in tier token budgets/temperatures).  Each
tier's network call either throws a transport error or returns free text;
the surrounding `try`/`catch` of that tier swallows every exception
raised inside it, including the cancellation errors thrown at the
before-tier and after-call checkpoints.  The abort signal is one-way, so
it is modelled as the first checkpoint at which `abortSignal.aborted`
reads true; checkpoints are numbered 0 (pre-start check, outside any
`try`), then per tier `2*tier - 1` (before the call) and `2*tier`
(after the call returns).  Text parsing follows
`extractBPMData`: the first `/(\d+\.?\d*)/` regex match, with a
`parseFloat` fallback over the whole trimmed text that can only produce a
non-numeric (hence invalid) value when no digit occurs, which the model
folds into parse failure — both fail the `0 < bpm < 300` validity test
exactly when the source does. -/

/-- What the external generative call does when it is actually issued. -/
inductive TierBehavior where
  | throwT
  | respond (raw : List Char)

/-- Structured diagnostic events: `tierLog` is the `addGeminiLog` entry
recorded after a successful text extraction (with its `valid` flag),
`tierInvalid` the live-status `failed` mark on an out-of-bound/NaN value,
`tierError` the catch-path record of a tier failure (`console.error` plus
the live-status `error` mark), `allFailedLog` the final `addGeminiLog`
entry of the all-tiers-failed path. -/
inductive DiagEvent where
  | tierLog (tier : Nat) (valid : Bool)
  | tierInvalid (tier : Nat)
  | tierError (tier : Nat)
  | allFailedLog
  deriving DecidableEq, Repr

/-- JavaScript `String.prototype.trim` over the response text. -/
def trimChars (raw : List Char) : List Char :=
  ((raw.dropWhile Char.isWhitespace).reverse.dropWhile Char.isWhitespace).reverse

/-- Numeric value of a decimal digit character. -/
def digitVal (c : Char) : Nat := c.toNat - 48

/-- Greedily consume leading decimal digits; returns their value, how
many there were, and the remaining characters. -/
def readDigits : List Char → Nat → Nat → Nat × Nat × List Char
  | [], acc, k => (acc, k, [])
  | c :: cs, acc, k =>
    if c.isDigit then readDigits cs (10 * acc + digitVal c) (k + 1)
    else (acc, k, c :: cs)

/-- The value the regex `/(\d+\.?\d*)/` matches at a position where a
digit starts: integer digits, an optional dot, optional fraction
digits. -/
def matchNumber (cs : List Char) : ℚ :=
  match readDigits cs 0 0 with
  | (intPart, _, rest) =>
    match rest with
    | '.' :: rest2 =>
      match readDigits rest2 0 0 with
      | (fracPart, k, _) => (intPart : ℚ) + (fracPart : ℚ) / ((10 : ℚ) ^ k)
    | _ => (intPart : ℚ)

/-- Leftmost match of `/(\d+\.?\d*)/` over the text; `none` when the text
has no digit, in which case the `parseFloat` fallback also yields no
valid BPM (NaN, or an out-of-bound infinity). -/
def firstNumber : List Char → Option ℚ
  | [] => none
  | c :: cs => if c.isDigit then some (matchNumber (c :: cs)) else firstNumber cs

/-- BPM extraction from the (trimmed, non-empty) response text. -/
def parseBPM (text : List Char) : Option ℚ := firstNumber text

/-- `!isNaN(bpm) && bpm > 0 && bpm < 300`. -/
def validBPM (q : ℚ) : Bool := decide (0 < q) && decide (q < 300)

/-- First checkpoint at which the abort signal reads `aborted`, if any;
the signal never resets, so it reads aborted at every later checkpoint
too. -/
def checkAborted (abortFrom : Option Nat) (cp : Nat) : Bool :=
  match abortFrom with
  | none => false
  | some k => decide (k ≤ cp)

/-- Result of one tier's `try` block: the valid BPM if the tier
succeeded, whether its network call was actually issued, and the
diagnostic events it recorded. -/
structure TierRun where
  result : Option ℚ
  called : Bool
  events : List DiagEvent
  deriving DecidableEq, Repr

/-- `extractBPMData` plus the validity test on a response that arrived:
empty trimmed text throws (caught by the tier's `catch`, recording a
failure), otherwise the parsed value is logged with its `valid` flag and
an out-of-bound/NaN value marks the tier failed. -/
def extractStep (tier : Nat) (raw : List Char) : TierRun :=
  if (trimChars raw).isEmpty then ⟨none, true, [.tierError tier]⟩
  else
    match parseBPM (trimChars raw) with
    | none => ⟨none, true, [.tierLog tier false, .tierInvalid tier]⟩
    | some q =>
      if validBPM q then ⟨some q, true, [.tierLog tier true]⟩
      else ⟨none, true, [.tierLog tier false, .tierInvalid tier]⟩

/-- One tier of `getTrackBPMWithGemini`: cancellation check before the
call, the call itself, cancellation check after it, then
`extractBPMData` (which throws on empty text) and the validity test.
Every throw lands in this tier's own `catch`, which records the failure
and falls through to the next tier. -/
def runTier (abortFrom : Option Nat) (tier preCP postCP : Nat) (b : TierBehavior) : TierRun :=
  if checkAborted abortFrom preCP then ⟨none, false, [.tierError tier]⟩
  else
    match b with
    | .throwT => ⟨none, true, [.tierError tier]⟩
    | .respond raw =>
      if checkAborted abortFrom postCP then ⟨none, true, [.tierError tier]⟩
      else extractStep tier raw

/-- What `getTrackBPMWithGemini` does from its caller's point of view:
return a BPM estimate from some tier, return `null`, or throw (only the
missing-key check and the pre-start cancellation check can throw out of
the function). -/
inductive OracleOutcome where
  | estimate (bpm : ℚ) (tier : Nat)
  | noEstimate
  | thrownCancelled
  | thrownMissingKey
  deriving DecidableEq, Repr

/-- A whole run: the outcome, which tiers' network calls were issued, and
the diagnostic events in order. -/
structure OracleRun where
  outcome : OracleOutcome
  calls : List Nat
  events : List DiagEvent
  deriving DecidableEq, Repr

/-- The network calls a tier run contributed. -/
def callsOf (tier : Nat) (r : TierRun) : List Nat := if r.called then [tier] else []

/-- The fallback chain over the three tier runs: first success wins, a
failed tier falls through, all three failing yields `null` plus the final
`ALL FAILED` log entry.  (Tier runs are pure, so later runs are simply
ignored when an earlier tier succeeds.) -/
def combineTiers (r1 r2 r3 : TierRun) : OracleRun :=
  match r1.result with
  | some q => ⟨.estimate q 1, callsOf 1 r1, r1.events⟩
  | none =>
    match r2.result with
    | some q => ⟨.estimate q 2, callsOf 1 r1 ++ callsOf 2 r2, r1.events ++ r2.events⟩
    | none =>
      match r3.result with
      | some q => ⟨.estimate q 3, callsOf 1 r1 ++ callsOf 2 r2 ++ callsOf 3 r3,
          r1.events ++ r2.events ++ r3.events⟩
      | none => ⟨.noEstimate, callsOf 1 r1 ++ callsOf 2 r2 ++ callsOf 3 r3,
          r1.events ++ r2.events ++ r3.events ++ [.allFailedLog]⟩

/-- `getTrackBPMWithGemini(title, artist, geminiApiKey, ..., abortSignal, ...)`:
missing-key throw, pre-start cancellation throw, then the three-tier
fallback chain. -/
def getTrackBPMWithGemini (keyPresent : Bool) (abortFrom : Option Nat)
    (b1 b2 b3 : TierBehavior) : OracleRun :=
  if ¬keyPresent then ⟨.thrownMissingKey, [], []⟩
  else if checkAborted abortFrom 0 then ⟨.thrownCancelled, [], []⟩
  else
    combineTiers (runTier abortFrom 1 1 2 b1) (runTier abortFrom 2 3 4 b2)
      (runTier abortFrom 3 5 6 b3)

/-- The tier's extracted value is parseable and strictly inside
`(0, 300)` — the source's per-tier success test. -/
def validResponse (raw : List Char) : Bool :=
  !(trimChars raw).isEmpty &&
    (match parseBPM (trimChars raw) with
      | some q => validBPM q
      | none => false)

/-- The BPM a valid response parses to. -/
def parsedBPM (raw : List Char) : ℚ := (parseBPM (trimChars raw)).getD 0

/-- A tier attempt fails: its call throws, or its response is empty,
unparseable or out of bounds. -/
def tierFails : TierBehavior → Bool
  | .throwT => true
  | .respond raw => !validResponse raw

/-! ## Authenticated catalog requests

Translated from `spGet` (part_002 lines 843-875).  The server's
behaviour is supplied as the list of responses it gives to the successive
transmissions of this one request, and the refresh endpoint's behaviour
as the list of outcomes of successive `refreshSpotifyToken` calls.  The
recursion `return spGet(path, params)` after a 401 (and after a 429
sleep) consumes the next response; a run that consumes every provided
response without returning is reported as `none`.  `spPost`
(lines 877-892) has the same 401 structure minus the 429 branch. -/

/-- One HTTP response to the request. -/
inductive SpResp where
  | ok (v : Nat)
  | status401
  | status429 (retryAfter : Option Nat)
  | statusBad (code : Nat)
  deriving DecidableEq, Repr

/-- What `spGet` can throw to its caller. -/
inductive SpError where
  | refreshFailed
  | httpError (code : Nat)
  deriving DecidableEq, Repr

/-- Observable outcome of one `spGet` call: the returned value or thrown
error, how many credential-refresh calls were issued, and how many times
the original request was transmitted. -/
structure SpGetResult where
  result : Except SpError Nat
  refreshCount : Nat
  requestCount : Nat
  deriving Repr

/-- `spGet`: 401 → `refreshSpotifyToken()` then `return spGet(path,
params)`; 429 → sleep then `return spGet(path, params)`; `!res.ok` →
throw; otherwise return the payload.  (The surrounding `try`/`catch`
only logs and rethrows, so it does not change the observable result.) -/
def spGet : List SpResp → List Bool → Option SpGetResult
  | [], _ => none
  | r :: rs, refreshes =>
    match r with
    | .ok v => some ⟨.ok v, 0, 1⟩
    | .statusBad c => some ⟨.error (.httpError c), 0, 1⟩
    | .status429 _ =>
      (spGet rs refreshes).map fun res =>
        ⟨res.result, res.refreshCount, res.requestCount + 1⟩
    | .status401 =>
      match refreshes with
      | [] => none
      | refreshOk :: rest =>
        if refreshOk then
          (spGet rs rest).map fun res =>
            ⟨res.result, res.refreshCount + 1, res.requestCount + 1⟩
        else some ⟨.error .refreshFailed, 1, 1⟩

/-- `spPost`: the same unguarded 401 branch (`await refreshSpotifyToken();
return spPost(path, body)`) without the 429 handling — a 429 falls into
the `!res.ok` throw. -/
def spPost : List SpResp → List Bool → Option SpGetResult
  | [], _ => none
  | r :: rs, refreshes =>
    match r with
    | .ok v => some ⟨.ok v, 0, 1⟩
    | .statusBad c => some ⟨.error (.httpError c), 0, 1⟩
    | .status429 _ => some ⟨.error (.httpError 429), 0, 1⟩
    | .status401 =>
      match refreshes with
      | [] => none
      | refreshOk :: rest =>
        if refreshOk then
          (spPost rs rest).map fun res =>
            ⟨res.result, res.refreshCount + 1, res.requestCount + 1⟩
        else some ⟨.error .refreshFailed, 1, 1⟩

/-! ## Pagination loops

Translated from `loadPlaylists` (part_002 lines 919-949),
`getAllSavedTracks` (part_002 lines 984-1001) and the earlier
`loadPlaylists` (part_003 lines 614-633).  The remote catalog is the
full list of item ids; a page request `{limit, offset}` returns
`catalog.drop offset |>.take limit`, the standard offset-pagination
semantics.  The loops are given fuel (a bound on the number of page
requests); the filtering/mapping
of page items is orthogonal to the continuation test, which in the
source always inspects the raw `page.items.length`. -/

/-- `spGet(url, { limit, offset })` viewed as a pure page read. -/
def pageAt (catalog : List Nat) (limit offset : Nat) : List Nat :=
  (catalog.drop offset).take limit

/-- The `while (next && out.length < maxPlaylists)` loop of the part_002
`loadPlaylists`: request `limit: 50, offset: out.length`, append the
page, and continue while the page has exactly 20 items (sic) and the cap
is not hit. -/
def loadPlaylistsGo (catalog : List Nat) (maxPlaylists : Nat) :
    Nat → Bool → List Nat → List Nat
  | 0, _, out => out
  | fuel + 1, next, out =>
    if next ∧ out.length < maxPlaylists then
      loadPlaylistsGo catalog maxPlaylists fuel
        (decide ((pageAt catalog 50 out.length).length = 20) &&
          decide ((out ++ pageAt catalog 50 out.length).length < maxPlaylists))
        (out ++ pageAt catalog 50 out.length)
    else out

/-- `loadPlaylists(maxPlaylists = 100)` of part_002. -/
def loadPlaylists (catalog : List Nat) (fuel : Nat) : List Nat :=
  loadPlaylistsGo catalog 100 fuel true []

/-- `getAllSavedTracks()` of part_002: request `limit: 10, offset`,
continue while the page has exactly 10 items. -/
def getAllSavedTracksGo (catalog : List Nat) : Nat → Nat → Bool → List Nat → List Nat
  | 0, _, _, items => items
  | fuel + 1, offset, more, items =>
    if more then
      getAllSavedTracksGo catalog fuel (offset + 10)
        (decide ((pageAt catalog 10 offset).length = 10))
        (items ++ pageAt catalog 10 offset)
    else items

/-- `getAllSavedTracks()` of part_002 from the initial state. -/
def getAllSavedTracks (catalog : List Nat) (fuel : Nat) : List Nat :=
  getAllSavedTracksGo catalog fuel 0 true []

/-- The part_003 `loadPlaylists`: `limit: 50, offset: out.length`,
continue while the page has exactly 50 items — the consistent version of
the same loop. -/
def loadPlaylistsLegacyGo (catalog : List Nat) : Nat → Bool → List Nat → List Nat
  | 0, _, out => out
  | fuel + 1, next, out =>
    if next then
      loadPlaylistsLegacyGo catalog fuel
        (decide ((pageAt catalog 50 out.length).length = 50))
        (out ++ pageAt catalog 50 out.length)
    else out

/-- The part_003 `loadPlaylists` from the initial state. -/
def loadPlaylistsLegacy (catalog : List Nat) (fuel : Nat) : List Nat :=
  loadPlaylistsLegacyGo catalog fuel true []

/-! ## Scan-session accumulation

Translated from the accept path of `processTrackForSelection` (part_002
lines 1213-1232) and the saved-tracks accept path of `findMatchingSongs`
(lines 1441-1456), which are textually the same update:
`selectedTracks.push(trackWithTempo); currentDurationMs +=
track.duration_ms || 0`, where `trackWithTempo` spreads `track` and so
keeps its `duration_ms`.  Between the two phases the selection is
re-sorted by recency (line 1383), which is also modelled.  All mutation
happens on the single JavaScript thread reacting to completions, so a
session history is a sequence of these events. -/

/-- A track as the accumulation sees it: `duration_ms` may be absent
(`track.duration_ms || 0` then contributes 0) and `added_at` orders the
re-sort. -/
structure STrack where
  id : Nat
  duration_ms : Option Nat
  added_at : Nat
  deriving DecidableEq, Repr

/-- The mutable pair `selectedTracks` / `currentDurationMs`. -/
structure ScanSession where
  selectedTracks : List STrack
  currentDurationMs : Nat
  deriving DecidableEq, Repr

/-- Session state when scanning starts: `selectedTracks = []`,
`currentDurationMs = 0`. -/
def initialSession : ScanSession := ⟨[], 0⟩

/-- One accept event, identical in the playlist-scan and saved-tracks
phases. -/
def acceptTrack (s : ScanSession) (t : STrack) : ScanSession :=
  ⟨s.selectedTracks ++ [t], s.currentDurationMs + t.duration_ms.getD 0⟩

/-- The events that touch the selection during a scan session. -/
inductive ScanEvent where
  | accept (t : STrack)
  | resortByRecency

/-- Apply one event: accept appends and accumulates; the re-sort between
phases reorders `selectedTracks` by decreasing `added_at` and leaves the
accumulated duration untouched. -/
def applyEvent (s : ScanSession) : ScanEvent → ScanSession
  | .accept t => acceptTrack s t
  | .resortByRecency =>
    ⟨s.selectedTracks.mergeSort (fun a b => decide (b.added_at ≤ a.added_at)),
      s.currentDurationMs⟩

/-- A session history: the events applied in order from the initial
state. -/
def runScan (events : List ScanEvent) : ScanSession :=
  events.foldl applyEvent initialSession

/-- Sum of the durations of the items currently in the selection
(`duration_ms` read as 0 when absent). -/
def sumDurations (l : List STrack) : Nat :=
  (l.map fun t => t.duration_ms.getD 0).sum

end Sporkify

namespace Sporkify

theorem filterTracksByTempo_singleton (tempos : Nat → Option ℚ) (minBpm maxBpm : ℚ)
    (tr : Track) :
    filterTracksByTempo [tr] tempos minBpm maxBpm =
      if filterPred tempos minBpm maxBpm tr then [mapTrack tempos minBpm maxBpm tr]
      else [] := by
  simp only [filterTracksByTempo, List.filter]
  split <;> simp_all

/-- C1. The tempo matcher produces a `MatchResult` for a track with resolved
tempo `t` iff `t`, `t/2` or `t*2` lies in the inclusive range
`[minBpm, maxBpm]`; on a match the original value is preferred as display
tempo (tag `original`), then `t/2` (`half-time`), then `t*2`
(`double-time`), and the result carries the original raw tempo; with range
`[150,170]` and raw tempo `78` the track is accepted as the double-time
variant with display tempo `156` and original tempo `78`. -/
theorem tempo_match_iff_and_priority
    (tempos : Nat → Option ℚ) (minBpm maxBpm t : ℚ) (tr : Track)
    (hres : tempos tr.id = some t) (hpos : 0 < t) :
    ((filterTracksByTempo [tr] tempos minBpm maxBpm ≠ []) ↔
      ((minBpm ≤ t ∧ t ≤ maxBpm) ∨ (minBpm ≤ t / 2 ∧ t / 2 ≤ maxBpm) ∨
        (minBpm ≤ t * 2 ∧ t * 2 ≤ maxBpm))) ∧
    (∀ r ∈ filterTracksByTempo [tr] tempos minBpm maxBpm,
      r.originalTempo = t ∧
      ((minBpm ≤ t ∧ t ≤ maxBpm) → r.tempo = t ∧ r.tempoType = .original) ∧
      (¬(minBpm ≤ t ∧ t ≤ maxBpm) → (minBpm ≤ t / 2 ∧ t / 2 ≤ maxBpm) →
        r.tempo = t / 2 ∧ r.tempoType = .halfTime) ∧
      (¬(minBpm ≤ t ∧ t ≤ maxBpm) → ¬(minBpm ≤ t / 2 ∧ t / 2 ≤ maxBpm) →
        r.tempo = t * 2 ∧ r.tempoType = .doubleTime)) ∧
    processTrackDecision t minBpm maxBpm =
      (filterTracksByTempo [tr] tempos minBpm maxBpm).head?.map
        (fun r => (r.tempo, r.tempoType)) ∧
    filterTracksByTempo [tr] (fun _ => some 78) 150 170 =
      [⟨tr, 156, 78, .doubleTime⟩] := by
  have hne : t ≠ 0 := ne_of_gt hpos
  have hIR : ∀ x : ℚ, inRange x minBpm maxBpm = true ↔ (minBpm ≤ x ∧ x ≤ maxBpm) := by
    intro x; simp [inRange]
  have hpred : filterPred tempos minBpm maxBpm tr =
      (inRange t minBpm maxBpm || inRange (t / 2) minBpm maxBpm
        || inRange (t * 2) minBpm maxBpm) := by
    simp [filterPred, hres, hne]
  refine ⟨?_, ?_, ?_, ?_⟩
  · have hif : ∀ (b : Bool) (x : MatchResult), ((if b then [x] else []) ≠ []) ↔ b = true := by
      intro b x; cases b <;> simp
    rw [filterTracksByTempo_singleton, hpred, hif]
    simp [inRange, or_assoc]
  · intro r hr
    rw [filterTracksByTempo_singleton] at hr
    by_cases hp : filterPred tempos minBpm maxBpm tr = true
    · simp only [hp, if_true, List.mem_singleton] at hr
      subst hr
      simp only [mapTrack, hres, Option.getD_some]
      refine ⟨?_, ?_, ?_, ?_⟩
      · split_ifs <;> rfl
      · intro h
        rw [if_pos ((hIR t).2 h)]
        exact ⟨rfl, rfl⟩
      · intro h h2
        rw [if_neg (fun hc => h ((hIR t).1 hc)), if_pos ((hIR _).2 h2)]
        exact ⟨rfl, rfl⟩
      · intro h h2
        have hd : inRange t minBpm maxBpm = true ∨ inRange (t / 2) minBpm maxBpm = true ∨
            inRange (t * 2) minBpm maxBpm = true := by
          have hpb := hp
          rw [hpred] at hpb
          simpa [Bool.or_eq_true, or_assoc] using hpb
        have h3 : inRange (t * 2) minBpm maxBpm = true := by
          rcases hd with hx | hx | hx
          · exact absurd ((hIR t).1 hx) h
          · exact absurd ((hIR _).1 hx) h2
          · exact hx
        rw [if_neg (fun hc => h ((hIR t).1 hc)), if_neg (fun hc => h2 ((hIR _).1 hc)),
          if_pos h3]
        exact ⟨rfl, rfl⟩
    · simp [hp] at hr
  · rw [filterTracksByTempo_singleton, hpred]
    unfold processTrackDecision mapTrack
    rw [hres]
    simp only [Option.getD_some]
    by_cases h1 : inRange t minBpm maxBpm = true <;>
      by_cases h2 : inRange (t / 2) minBpm maxBpm = true <;>
        by_cases h3 : inRange (t * 2) minBpm maxBpm = true <;>
          simp [h1, h2, h3]
  · rw [filterTracksByTempo_singleton]
    norm_num [filterPred, mapTrack, inRange]

/-- C1 witness: the theorem applied at a concrete track whose resolved
tempo is 78, with range `[150, 170]`. -/
theorem tempo_match_iff_and_priority_witness :
    (fun _ : Nat => some (78 : ℚ)) (Track.id ⟨0, 0⟩) = some 78 ∧ (0 : ℚ) < 78 ∧
    filterTracksByTempo [(⟨0, 0⟩ : Track)] (fun _ => some 78) 150 170 =
      [⟨⟨0, 0⟩, 156, 78, .doubleTime⟩] :=
  ⟨rfl, by norm_num,
    (tempo_match_iff_and_priority (fun _ => some 78) 150 170 78 ⟨0, 0⟩ rfl
      (by norm_num)).2.2.2⟩

/-- C10 counterexample: with the (reachable) custom range `[80, 200]` and
resolved tempo `90`, a `MatchResult` is produced, yet two of the three
candidates (`90` and `180`) lie in the range — not exactly one. -/
theorem matchresult_exactly_one_candidate_counterexample :
    filterTracksByTempo [(⟨0, 0⟩ : Track)] (fun _ => some 90) 80 200 =
      [⟨⟨0, 0⟩, 90, 90, .original⟩] ∧
    candidatesInRange 90 80 200 = 2 := by
  constructor
  · rw [filterTracksByTempo_singleton]
    norm_num [filterPred, mapTrack, inRange]
  · norm_num [candidatesInRange, inRange]

/-- C10 amended: for every produced `MatchResult` with original tempo `t`
and range `[minBpm, maxBpm]`, at least one of the candidates `t`, `t/2`,
`t*2` lies within the inclusive range. -/
theorem matchresult_at_least_one_candidate
    (tracks : List Track) (tempos : Nat → Option ℚ) (minBpm maxBpm : ℚ)
    (r : MatchResult) (hr : r ∈ filterTracksByTempo tracks tempos minBpm maxBpm) :
    1 ≤ candidatesInRange r.originalTempo minBpm maxBpm := by
  rcases List.mem_map.1 hr with ⟨tr, htr, hmap⟩
  have hpred := List.of_mem_filter htr
  subst hmap
  simp only [filterPred] at hpred
  rcases hcase : tempos tr.id with _ | tempo
  · rw [hcase] at hpred; simp at hpred
  · rw [hcase] at hpred
    have hpred2 : (if tempo = 0 then false
        else inRange tempo minBpm maxBpm || inRange (tempo / 2) minBpm maxBpm
          || inRange (tempo * 2) minBpm maxBpm) = true := hpred
    by_cases hz : tempo = 0
    · rw [if_pos hz] at hpred2; exact absurd hpred2 (by simp)
    · rw [if_neg hz] at hpred2
      have hd : inRange tempo minBpm maxBpm = true ∨
          inRange (tempo / 2) minBpm maxBpm = true ∨
          inRange (tempo * 2) minBpm maxBpm = true := by
        simpa [Bool.or_eq_true, or_assoc] using hpred2
      simp only [mapTrack, hcase, Option.getD_some]
      have horig : MatchResult.originalTempo
          (if inRange tempo minBpm maxBpm then
            ⟨tr, tempo, tempo, .original⟩
          else if inRange (tempo / 2) minBpm maxBpm then
            ⟨tr, tempo / 2, tempo, .halfTime⟩
          else if inRange (tempo * 2) minBpm maxBpm then
            ⟨tr, tempo * 2, tempo, .doubleTime⟩
          else ⟨tr, tempo, tempo, .original⟩) = tempo := by
        split_ifs <;> rfl
      rw [horig]
      rcases hd with h | h | h <;> simp [candidatesInRange, h] <;> omega

/-- C10 amended witness: the amended theorem applied to the concrete match
produced for tempo 78 with range `[150, 170]`. -/
theorem matchresult_at_least_one_candidate_witness :
    (⟨⟨0, 0⟩, 156, 78, .doubleTime⟩ : MatchResult) ∈
      filterTracksByTempo [(⟨0, 0⟩ : Track)] (fun _ => some 78) 150 170 ∧
    1 ≤ candidatesInRange 78 150 170 := by
  have hmem : (⟨⟨0, 0⟩, 156, 78, .doubleTime⟩ : MatchResult) ∈
      filterTracksByTempo [(⟨0, 0⟩ : Track)] (fun _ => some 78) 150 170 := by
    rw [filterTracksByTempo_singleton]
    norm_num [filterPred, mapTrack, inRange]
  exact ⟨hmem,
    matchresult_at_least_one_candidate [⟨0, 0⟩] (fun _ => some 78) 150 170
      ⟨⟨0, 0⟩, 156, 78, .doubleTime⟩ hmem⟩

theorem count_true_eraseIdx (l : List Bool) (i : Nat) (h : i < l.length) :
    l.count true = (l.eraseIdx i).count true + (if l.get ⟨i, h⟩ then 1 else 0) := by
  induction l generalizing i with
  | nil => simp at h
  | cons b t ih =>
    cases i with
    | zero => cases b <;> simp [List.count_cons]
    | succ j =>
      have hj : j < t.length := by simpa using h
      cases b <;> simp [List.count_cons, List.eraseIdx_cons_succ, ih j hj] <;> omega

theorem schedStep_measure (n : Nat) (s : SchedState) (i : Nat) :
    (schedStep n s i).currentIndex + (schedStep n s i).active.count true ≤
      s.currentIndex + s.active.count true := by
  unfold schedStep
  split
  · rename_i h
    have hcount := count_true_eraseIdx s.active i h
    split
    · rename_i hif
      simp only [List.count_append]
      have hg : s.active.get ⟨i, h⟩ = true := hif.1
      rw [hg] at hcount
      simp at hcount
      have h1 : List.count true [false] = 0 := by decide
      rw [h1]
      omega
    · rename_i hif
      simp only
      omega
  · omega

theorem schedStep_length_le (n : Nat) (s : SchedState) (i : Nat) :
    (schedStep n s i).active.length ≤ s.active.length := by
  unfold schedStep
  split
  · rename_i h
    have hlen : (s.active.eraseIdx i).length = s.active.length - 1 :=
      List.length_eraseIdx_of_lt h
    split <;> simp [hlen] <;> omega
  · omega

theorem foldl_schedStep_measure (n : Nat) (choices : List Nat) (s : SchedState) :
    (choices.foldl (schedStep n) s).currentIndex +
        (choices.foldl (schedStep n) s).active.count true ≤
      s.currentIndex + s.active.count true := by
  induction choices generalizing s with
  | nil => simp
  | cons c cs ih =>
    calc (List.foldl (schedStep n) (schedStep n s c) cs).currentIndex +
          (List.foldl (schedStep n) (schedStep n s c) cs).active.count true ≤
        (schedStep n s c).currentIndex + (schedStep n s c).active.count true :=
          ih (schedStep n s c)
      _ ≤ s.currentIndex + s.active.count true := schedStep_measure n s c

theorem foldl_schedStep_length (n : Nat) (choices : List Nat) (s : SchedState) :
    (choices.foldl (schedStep n) s).active.length ≤ s.active.length := by
  induction choices generalizing s with
  | nil => simp
  | cons c cs ih =>
    exact le_trans (ih (schedStep n s c)) (schedStep_length_le n s c)

/-- C3. At no point during any execution of the rolling scheduler are more
than `maxConcurrent = 30` per-item operations simultaneously unsettled,
whatever the input size and the settlement order. -/
theorem scheduler_concurrency_bound (n : Nat) (choices : List Nat) :
    (runSched n choices).active.length ≤ maxConcurrent := by
  have h := foldl_schedStep_length n choices (initialSched n)
  simp only [initialSched, List.length_replicate] at h
  exact le_trans h (min_le_right n maxConcurrent)

set_option maxRecDepth 10000 in
/-- C2. The rolling scheduler does not process every input item: in every
execution (any settlement order) at most `2 * maxConcurrent = 60` items
are ever started, because refilled promises carry no refill handler of
their own; concretely, on an input of 61 items the FIFO execution settles
every started operation (`active = []`) having started only 60 of the 61
items — the last item is silently abandoned. -/
theorem scheduler_abandons_61st_item :
    (∀ (n : Nat) (choices : List Nat),
      (runSched n choices).currentIndex ≤ 2 * maxConcurrent) ∧
    (drainSched 61 60).active = [] ∧
    (drainSched 61 60).currentIndex = 60 ∧
    (drainSched 61 31).active.length = 29 ∧
    (drainSched 61 31).currentIndex = 60 := by
  refine ⟨?_, by decide, by decide, by decide, by decide⟩
  intro n choices
  have h := foldl_schedStep_measure n choices (initialSched n)
  have hinit : (initialSched n).currentIndex + (initialSched n).active.count true =
      2 * min n maxConcurrent := by
    simp [initialSched, List.count_replicate]
    omega
  rw [hinit] at h
  have : min n maxConcurrent ≤ maxConcurrent := min_le_right n maxConcurrent
  unfold runSched
  omega

theorem extractStep_valid (tier : Nat) (raw : List Char) (h : validResponse raw = true) :
    extractStep tier raw = ⟨some (parsedBPM raw), true, [.tierLog tier true]⟩ := by
  unfold validResponse at h
  rcases hp : parseBPM (trimChars raw) with _ | v
  · rw [hp] at h; simp at h
  · rw [hp] at h
    simp only [Bool.and_eq_true, Bool.not_eq_true'] at h
    unfold extractStep parsedBPM
    rw [if_neg (by simp [h.1]), hp]
    simp [h.2]

theorem extractStep_invalid (tier : Nat) (raw : List Char) (h : validResponse raw = false) :
    (extractStep tier raw).result = none := by
  unfold validResponse at h
  unfold extractStep
  split_ifs with h1
  · rfl
  · rcases hp : parseBPM (trimChars raw) with _ | v
    · rfl
    · rw [hp] at h
      simp only [Bool.not_eq_true', Bool.and_eq_false_iff] at h
      rcases h with h | h
      · exact absurd h (by simp [h1])
      · simp [h]

theorem runTier_none_respond (tier p q : Nat) (raw : List Char) :
    runTier none tier p q (.respond raw) = extractStep tier raw := rfl

theorem runTier_none_called (tier p q : Nat) (b : TierBehavior) :
    (runTier none tier p q b).called = true := by
  cases b with
  | throwT => rfl
  | respond raw =>
    rw [runTier_none_respond]
    unfold extractStep
    split_ifs with h1
    · rfl
    · rcases hp : parseBPM (trimChars raw) with _ | v
      · rfl
      · by_cases hv : validBPM v = true <;> simp [hv]

theorem runTier_fails (tier p q : Nat) (b : TierBehavior) (h : tierFails b = true) :
    (runTier none tier p q b).result = none := by
  cases b with
  | throwT => rfl
  | respond raw =>
    rw [runTier_none_respond]
    exact extractStep_invalid tier raw (by simpa [tierFails] using h)

theorem getTrackBPM_none_unfold (b1 b2 b3 : TierBehavior) :
    getTrackBPMWithGemini true none b1 b2 b3 =
      combineTiers (runTier none 1 1 2 b1) (runTier none 2 3 4 b2)
        (runTier none 3 5 6 b3) := rfl

/-- C4. Tier escalation of the BPM oracle (no cancellation): a tier whose
call yields a parseable value strictly inside `(0, 300)` makes the
function return that value at once — later tiers are never invoked; a
failed tier (exception, empty/unparseable text, out-of-bound value) falls
through to the next tier; concretely, tier 1 answering the invalid text
`"unknown"` and tier 2 answering `"128 BPM"` yields the estimate 128 from
tier 2 with tier 3 never invoked. -/
theorem oracle_tier_escalation (raw1 raw2 raw3 : List Char) (b1 b2 b3 : TierBehavior) :
    (validResponse raw1 = true →
      getTrackBPMWithGemini true none (.respond raw1) b2 b3 =
        ⟨.estimate (parsedBPM raw1) 1, [1], [.tierLog 1 true]⟩) ∧
    (tierFails b1 = true → validResponse raw2 = true →
      (getTrackBPMWithGemini true none b1 (.respond raw2) b3).outcome =
          .estimate (parsedBPM raw2) 2 ∧
        (getTrackBPMWithGemini true none b1 (.respond raw2) b3).calls = [1, 2]) ∧
    (tierFails b1 = true → tierFails b2 = true → validResponse raw3 = true →
      (getTrackBPMWithGemini true none b1 b2 (.respond raw3)).outcome =
        .estimate (parsedBPM raw3) 3) ∧
    getTrackBPMWithGemini true none (.respond ("unknown".data))
        (.respond ("128 BPM".data)) b3 =
      ⟨.estimate 128 2, [1, 2], [.tierLog 1 false, .tierInvalid 1, .tierLog 2 true]⟩ := by
  refine ⟨?_, ?_, ?_, ?_⟩
  · intro h
    rw [getTrackBPM_none_unfold, runTier_none_respond, extractStep_valid 1 raw1 h]
    rfl
  · intro h1 h2
    have hres : (runTier none 1 1 2 b1).result = none := runTier_fails 1 1 2 b1 h1
    have hcal : (runTier none 1 1 2 b1).called = true := runTier_none_called 1 1 2 b1
    have e2 : runTier none 2 3 4 (.respond raw2) =
        ⟨some (parsedBPM raw2), true, [.tierLog 2 true]⟩ := by
      rw [runTier_none_respond]; exact extractStep_valid 2 raw2 h2
    rw [getTrackBPM_none_unfold, e2]
    unfold combineTiers
    rw [hres]
    simp [callsOf, hcal]
  · intro h1 h2 h3
    have hres1 : (runTier none 1 1 2 b1).result = none := runTier_fails 1 1 2 b1 h1
    have hres2 : (runTier none 2 3 4 b2).result = none := runTier_fails 2 3 4 b2 h2
    have e3 : runTier none 3 5 6 (.respond raw3) =
        ⟨some (parsedBPM raw3), true, [.tierLog 3 true]⟩ := by
      rw [runTier_none_respond]; exact extractStep_valid 3 raw3 h3
    rw [getTrackBPM_none_unfold, e3]
    unfold combineTiers
    rw [hres1, hres2]
  · have e1 : runTier none 1 1 2 (.respond ("unknown".data)) =
        ⟨none, true, [.tierLog 1 false, .tierInvalid 1]⟩ := by decide
    have e2 : runTier none 2 3 4 (.respond ("128 BPM".data)) =
        ⟨some 128, true, [.tierLog 2 true]⟩ := by decide
    rw [getTrackBPM_none_unfold, e1, e2]
    rfl

/-- C4 witness: the tier-1 and tier-2 clauses applied to the concrete
responses `"150"` (valid) and `"unknown"` (invalid). -/
theorem oracle_tier_escalation_witness :
    validResponse ("150".data) = true ∧
    tierFails (.respond ("unknown".data)) = true ∧
    getTrackBPMWithGemini true none (.respond ("150".data)) .throwT .throwT =
      ⟨.estimate (parsedBPM ("150".data)) 1, [1], [.tierLog 1 true]⟩ ∧
    (getTrackBPMWithGemini true none (.respond ("unknown".data))
        (.respond ("150".data)) .throwT).outcome =
      .estimate (parsedBPM ("150".data)) 2 :=
  ⟨by decide, by decide,
    (oracle_tier_escalation ("150".data) ("150".data) ("150".data) .throwT .throwT
      .throwT).1 (by decide),
    ((oracle_tier_escalation ("150".data) ("150".data) ("150".data)
        (.respond ("unknown".data)) .throwT .throwT).2.1 (by decide) (by decide)).1⟩

/-- C5. With an API key present and no cancellation: whenever all three
tiers fail or return invalid values, the oracle returns the absent
estimate (the JS `null`) and no exception reaches the caller — each
tier's transport exception is caught inside that tier; and when all three
tiers throw transport errors, exactly 3 per-tier diagnostic failure
events are recorded (one per tier's catch), before the final summary log
entry. -/
theorem oracle_absent_estimate_on_total_failure (b1 b2 b3 : TierBehavior)
    (h1 : tierFails b1 = true) (h2 : tierFails b2 = true) (h3 : tierFails b3 = true) :
    (getTrackBPMWithGemini true none b1 b2 b3).outcome = .noEstimate ∧
    (getTrackBPMWithGemini true none .throwT .throwT .throwT).events =
      [.tierError 1, .tierError 2, .tierError 3, .allFailedLog] ∧
    ((getTrackBPMWithGemini true none .throwT .throwT .throwT).events.countP
      (fun e => match e with | .tierError _ => true | _ => false)) = 3 := by
  refine ⟨?_, by decide, by decide⟩
  have r1 := runTier_fails 1 1 2 b1 h1
  have r2 := runTier_fails 2 3 4 b2 h2
  have r3 := runTier_fails 3 5 6 b3 h3
  rw [getTrackBPM_none_unfold]
  unfold combineTiers
  rw [r1, r2, r3]

/-- C5 witness: the theorem applied when every tier throws a transport
error. -/
theorem oracle_absent_estimate_on_total_failure_witness :
    tierFails .throwT = true ∧
    (getTrackBPMWithGemini true none .throwT .throwT .throwT).outcome = .noEstimate :=
  ⟨by decide,
    (oracle_absent_estimate_on_total_failure .throwT .throwT .throwT
      (by decide) (by decide) (by decide)).1⟩

/-- C6 counterexample: cancellation first observed at the checkpoint
immediately after tier 1's network call returns (checkpoint 2) does not
produce a distinguishable cancelled outcome — the cancellation error is
swallowed by tier 1's own catch, the remaining tiers fail their pre-call
checks, and the function returns the absent estimate: exactly the outcome
of the all-tiers-failed run, not `thrownCancelled`. -/
theorem oracle_cancellation_counterexample :
    (getTrackBPMWithGemini true (some 2) (.respond ("128 BPM".data))
        (.respond ("128 BPM".data)) (.respond ("128 BPM".data))).outcome = .noEstimate ∧
    (getTrackBPMWithGemini true none .throwT .throwT .throwT).outcome = .noEstimate ∧
    (OracleOutcome.noEstimate ≠ .thrownCancelled) := by
  refine ⟨by decide, by decide, by decide⟩

theorem runTier_abort_eq_none_run (k t p q : Nat) (b : TierBehavior)
    (hp : p < k) (hq : q < k) :
    runTier (some k) t p q b = runTier none t p q b := by
  have h1 : checkAborted (some k) p = false := by
    simp only [checkAborted, decide_eq_false_iff_not]
    omega
  have h2 : checkAborted (some k) q = false := by
    simp only [checkAborted, decide_eq_false_iff_not]
    omega
  cases b with
  | throwT =>
    unfold runTier
    rw [h1]
    rfl
  | respond raw =>
    unfold runTier
    rw [h1, h2]
    rfl

theorem runTier_called_not_le (k t p q : Nat) (b : TierBehavior)
    (h : (runTier (some k) t p q b).called = true) : ¬ k ≤ p := by
  intro hle
  have hc : checkAborted (some k) p = true := by simp [checkAborted, hle]
  unfold runTier at h
  rw [if_pos hc] at h
  simp at h

theorem runTier_result_some_not_le (k t p q : Nat) (b : TierBehavior) (v : ℚ)
    (h : (runTier (some k) t p q b).result = some v) : ¬ k ≤ p ∧ ¬ k ≤ q := by
  cases b with
  | throwT =>
    unfold runTier at h
    by_cases hp : checkAborted (some k) p = true
    · rw [if_pos hp] at h
      simp at h
    · rw [if_neg hp] at h
      have h' : (none : Option ℚ) = some v := h
      simp at h'
  | respond raw =>
    unfold runTier at h
    by_cases hp : checkAborted (some k) p = true
    · rw [if_pos hp] at h
      simp at h
    · rw [if_neg hp] at h
      have h' : (if checkAborted (some k) q = true then
          ({ result := none, called := true, events := [DiagEvent.tierError t] } : TierRun)
          else extractStep t raw).result = some v := h
      refine ⟨fun hle => hp (by simp [checkAborted, hle]), fun hle => ?_⟩
      rw [if_pos (by simp [checkAborted, hle] : checkAborted (some k) q = true)] at h'
      simp at h'

theorem mem_callsOf {i j : Nat} {r : TierRun} (h : i ∈ callsOf j r) :
    i = j ∧ r.called = true := by
  unfold callsOf at h
  by_cases hc : r.called = true
  · rw [if_pos hc] at h
    simp at h
    exact ⟨h, hc⟩
  · rw [if_neg hc] at h
    simp at h

theorem combineTiers_outcome_cases (r1 r2 r3 : TierRun) :
    (combineTiers r1 r2 r3).outcome = .noEstimate ∨
      ∃ v i, (combineTiers r1 r2 r3).outcome = .estimate v i := by
  unfold combineTiers
  rcases h1 : r1.result with _ | q1 <;> rcases h2 : r2.result with _ | q2 <;>
    rcases h3 : r3.result with _ | q3 <;>
      first
      | exact Or.inl rfl
      | exact Or.inr ⟨_, _, rfl⟩

theorem combineTiers_estimate (r1 r2 r3 : TierRun) (v : ℚ) (i : Nat)
    (h : (combineTiers r1 r2 r3).outcome = .estimate v i) :
    (i = 1 ∧ r1.result = some v) ∨ (i = 2 ∧ r2.result = some v) ∨
      (i = 3 ∧ r3.result = some v) := by
  unfold combineTiers at h
  rcases h1 : r1.result with _ | q1
  · rw [h1] at h
    rcases h2 : r2.result with _ | q2
    · rw [h2] at h
      rcases h3 : r3.result with _ | q3
      · rw [h3] at h
        simp at h
      · rw [h3] at h
        simp only [OracleOutcome.estimate.injEq] at h
        exact Or.inr (Or.inr ⟨h.2.symm, by rw [h.1]⟩)
    · rw [h2] at h
      simp only [OracleOutcome.estimate.injEq] at h
      exact Or.inr (Or.inl ⟨h.2.symm, by rw [h.1]⟩)
  · rw [h1] at h
    simp only [OracleOutcome.estimate.injEq] at h
    exact Or.inl ⟨h.2.symm, by rw [h.1]⟩

theorem combineTiers_calls_sub (r1 r2 r3 : TierRun) (i : Nat)
    (h : i ∈ (combineTiers r1 r2 r3).calls) :
    i ∈ callsOf 1 r1 ∨ i ∈ callsOf 2 r2 ∨ i ∈ callsOf 3 r3 := by
  unfold combineTiers at h
  rcases h1 : r1.result with _ | q1 <;> rcases h2 : r2.result with _ | q2 <;>
    rcases h3 : r3.result with _ | q3 <;> rw [h1, h2, h3] at h <;>
      simp only [List.mem_append] at h <;> tauto

theorem getTrackBPM_somek_unfold (k : Nat) (hk : 1 ≤ k) (b1 b2 b3 : TierBehavior) :
    getTrackBPMWithGemini true (some k) b1 b2 b3 =
      combineTiers (runTier (some k) 1 1 2 b1) (runTier (some k) 2 3 4 b2)
        (runTier (some k) 3 5 6 b3) := by
  have h0 : checkAborted (some k) 0 = false := by
    simp only [checkAborted, decide_eq_false_iff_not]
    omega
  simp [getTrackBPMWithGemini, h0]

theorem oracle_abort_calls_le (k : Nat) (hk : 1 ≤ k) (b1 b2 b3 : TierBehavior) :
    ∀ i ∈ (getTrackBPMWithGemini true (some k) b1 b2 b3).calls, 2 * i ≤ k := by
  intro i hi
  rw [getTrackBPM_somek_unfold k hk] at hi
  rcases combineTiers_calls_sub _ _ _ i hi with h | h | h <;>
    obtain ⟨rfl, hc⟩ := mem_callsOf h
  · have := runTier_called_not_le k 1 1 2 b1 hc
    omega
  · have := runTier_called_not_le k 2 3 4 b2 hc
    omega
  · have := runTier_called_not_le k 3 5 6 b3 hc
    omega

theorem oracle_abort_estimate_lt (k : Nat) (hk : 1 ≤ k) (b1 b2 b3 : TierBehavior) :
    ∀ (v : ℚ) (i : Nat),
      (getTrackBPMWithGemini true (some k) b1 b2 b3).outcome = .estimate v i →
        2 * i < k := by
  intro v i h
  rw [getTrackBPM_somek_unfold k hk] at h
  rcases combineTiers_estimate _ _ _ v i h with ⟨rfl, hr⟩ | ⟨rfl, hr⟩ | ⟨rfl, hr⟩
  · have := runTier_result_some_not_le k 1 1 2 b1 v hr
    omega
  · have := runTier_result_some_not_le k 2 3 4 b2 v hr
    omega
  · have := runTier_result_some_not_le k 3 5 6 b3 v hr
    omega

theorem oracle_abort_noEstimate (k : Nat) (hk : 1 ≤ k) (hk6 : k ≤ 6)
    (b1 b2 b3 : TierBehavior)
    (hf1 : 3 ≤ k → tierFails b1 = true) (hf2 : 5 ≤ k → tierFails b2 = true) :
    (getTrackBPMWithGemini true (some k) b1 b2 b3).outcome = .noEstimate := by
  rw [getTrackBPM_somek_unfold k hk]
  rcases combineTiers_outcome_cases (runTier (some k) 1 1 2 b1)
      (runTier (some k) 2 3 4 b2) (runTier (some k) 3 5 6 b3) with hno | ⟨v, i, hest⟩
  · exact hno
  · exfalso
    rcases combineTiers_estimate _ _ _ v i hest with ⟨_, hr⟩ | ⟨_, hr⟩ | ⟨_, hr⟩
    · have hnl := runTier_result_some_not_le k 1 1 2 b1 v hr
      rw [runTier_abort_eq_none_run k 1 1 2 b1 (by omega) (by omega),
        runTier_fails 1 1 2 b1 (hf1 (by omega))] at hr
      exact Option.noConfusion hr
    · have hnl := runTier_result_some_not_le k 2 3 4 b2 v hr
      rw [runTier_abort_eq_none_run k 2 3 4 b2 (by omega) (by omega),
        runTier_fails 2 3 4 b2 (hf2 (by omega))] at hr
      exact Option.noConfusion hr
    · have hnl := runTier_result_some_not_le k 3 5 6 b3 v hr
      omega

/-- C6 amended: cancellation is checked before each tier begins
(checkpoints 1, 3, 5) and immediately after each tier's network call
returns (checkpoints 2, 4, 6), but each tier's own catch swallows the
cancellation error thrown at those checkpoints.  Only cancellation
already observed at the pre-start check (checkpoint 0, outside every
try) yields the distinguishable cancelled outcome, with no network call
issued.  When cancellation is first observed at any later checkpoint
`k ≥ 1`: the function never signals the distinguishable cancelled
outcome; no network call is issued at or after the observation point
(every issued call's tier `i` had its pre-call check pass, `2*i ≤ k`);
any estimate it still returns comes from a tier that completed entirely
before the observation point (`2*i < k`); and whenever every tier that
completed before the observation point had failed, the function returns
the absent estimate — the same outcome as all-tiers-failed.  In
particular, cancellation observed during tier 1 (`k ≤ 2`) gives the
absent estimate with tiers 2 and 3 never invoked. -/
theorem oracle_cancellation_amended (b1 b2 b3 : TierBehavior) (k : Nat) :
    getTrackBPMWithGemini true (some 0) b1 b2 b3 = ⟨.thrownCancelled, [], []⟩ ∧
    (1 ≤ k →
      (getTrackBPMWithGemini true (some k) b1 b2 b3).outcome ≠ .thrownCancelled ∧
      (∀ i ∈ (getTrackBPMWithGemini true (some k) b1 b2 b3).calls, 2 * i ≤ k) ∧
      (∀ (v : ℚ) (i : Nat),
        (getTrackBPMWithGemini true (some k) b1 b2 b3).outcome = .estimate v i →
          2 * i < k) ∧
      ((3 ≤ k → tierFails b1 = true) → (5 ≤ k → tierFails b2 = true) → k ≤ 6 →
        (getTrackBPMWithGemini true (some k) b1 b2 b3).outcome = .noEstimate)) ∧
    (1 ≤ k → k ≤ 2 →
      (getTrackBPMWithGemini true (some k) b1 b2 b3).outcome = .noEstimate ∧
      2 ∉ (getTrackBPMWithGemini true (some k) b1 b2 b3).calls ∧
      3 ∉ (getTrackBPMWithGemini true (some k) b1 b2 b3).calls) := by
  refine ⟨rfl, fun hk => ⟨?_, oracle_abort_calls_le k hk b1 b2 b3,
      oracle_abort_estimate_lt k hk b1 b2 b3,
      fun hf1 hf2 hk6 => oracle_abort_noEstimate k hk hk6 b1 b2 b3 hf1 hf2⟩,
    fun hk hk2 => ⟨?_, fun h => ?_, fun h => ?_⟩⟩
  · rw [getTrackBPM_somek_unfold k hk]
    rcases combineTiers_outcome_cases (runTier (some k) 1 1 2 b1)
        (runTier (some k) 2 3 4 b2) (runTier (some k) 3 5 6 b3) with hno | ⟨v, i, hest⟩
    · rw [hno]
      simp
    · rw [hest]
      simp
  · exact oracle_abort_noEstimate k hk (by omega) b1 b2 b3
      (fun h3 => absurd h3 (by omega)) (fun h5 => absurd h5 (by omega))
  · have := oracle_abort_calls_le k hk b1 b2 b3 2 h
    omega
  · have := oracle_abort_calls_le k hk b1 b2 b3 3 h
    omega

/-- C7 counterexample: a server answering 401 twice and then 200 makes
`spGet` refresh twice and transmit the original request three times — the
claimed refresh-once cap and no-second-retry rule do not hold. -/
theorem spGet_double_refresh_counterexample :
    spGet [.status401, .status401, .ok 7] [true, true] =
      some ⟨.ok 7, 2, 3⟩ := rfl

/-- C7 amended: on HTTP 401 the client (`spGet` and `spPost` alike)
refreshes credentials and retransmits the original request, and it does
so once per 401 received with no once-only cap — every 401 triggers one
more refresh-and-retransmit of the same request, so `n` consecutive 401
responses cause `n` refreshes and `n + 1` transmissions before the final
success; when the refresh itself fails, an authentication-kind error
propagates to the caller after that single refresh attempt. -/
theorem spGet_refresh_per_401 (n v : Nat) (rs : List SpResp) (fs : List Bool) :
    spGet (.status401 :: rs) (true :: fs) =
      (spGet rs fs).map (fun res =>
        ⟨res.result, res.refreshCount + 1, res.requestCount + 1⟩) ∧
    spGet (List.replicate n .status401 ++ [.ok v]) (List.replicate n true) =
      some ⟨.ok v, n, n + 1⟩ ∧
    spGet (.status401 :: rs) (false :: fs) = some ⟨.error .refreshFailed, 1, 1⟩ ∧
    spPost (List.replicate n .status401 ++ [.ok v]) (List.replicate n true) =
      some ⟨.ok v, n, n + 1⟩ ∧
    spPost (.status401 :: rs) (false :: fs) = some ⟨.error .refreshFailed, 1, 1⟩ := by
  refine ⟨rfl, ?_, rfl, ?_, rfl⟩
  · induction n with
    | zero => rfl
    | succ m ih => simp [List.replicate_succ, spGet, ih]
  · induction n with
    | zero => rfl
    | succ m ih => simp [List.replicate_succ, spPost, ih]

/-- C8. The continuation test of the part_002 `loadPlaylists` compares
the page length against 20 while requesting pages of declared size 50, so
a full 50-item first page (60 items available) already reads as the
termination signal and only those 50 items are returned — against the
claim that fetching continues exactly while the page length equals the
declared size; the sibling loops `getAllSavedTracks` (10/10) and the
part_003 `loadPlaylists` (50/50) conform and return all 60 items. -/
theorem pagination_short_page_termination :
    loadPlaylists (List.range 60) 10 = (List.range 60).take 50 ∧
    (loadPlaylists (List.range 60) 10).length = 50 ∧
    (List.range 60).length = 60 ∧
    getAllSavedTracks (List.range 60) 10 = List.range 60 ∧
    loadPlaylistsLegacy (List.range 60) 10 = List.range 60 := by
  refine ⟨by decide, by decide, by decide, by decide, by decide⟩

theorem scan_duration_invariant_aux (events : List ScanEvent) (s : ScanSession)
    (h : s.currentDurationMs = sumDurations s.selectedTracks) :
    (events.foldl applyEvent s).currentDurationMs =
      sumDurations (events.foldl applyEvent s).selectedTracks := by
  induction events generalizing s with
  | nil => simpa using h
  | cons e es ih =>
    simp only [List.foldl_cons]
    apply ih
    cases e with
    | accept t => simp [applyEvent, acceptTrack, sumDurations, h]
    | resortByRecency =>
      simp only [applyEvent]
      rw [h]
      have hperm := List.mergeSort_perm s.selectedTracks
        (fun a b => decide (b.added_at ≤ a.added_at))
      exact ((hperm.map fun t => t.duration_ms.getD 0).sum_eq).symm

/-- C9. After every event of a scan session — accepts from the primary
playlist-scan phase, the re-sort between phases, and accepts from the
saved-tracks phase — the accumulated `currentDurationMs` equals the sum
of the durations (`duration_ms`, 0 when absent) of the tracks currently
in `selectedTracks`, and the accumulated duration never decreases from
one event to the next. -/
theorem scan_session_duration_invariant (events : List ScanEvent) (e : ScanEvent) :
    (runScan events).currentDurationMs = sumDurations (runScan events).selectedTracks ∧
    (runScan events).currentDurationMs ≤ (runScan (events ++ [e])).currentDurationMs := by
  constructor
  · exact scan_duration_invariant_aux events initialSession rfl
  · unfold runScan
    rw [List.foldl_append]
    simp only [List.foldl_cons, List.foldl_nil]
    cases e with
    | accept t => simp [applyEvent, acceptTrack]
    | resortByRecency => simp [applyEvent]

/-- C6 amended witness: the amended theorem applied at cancellation first
observed right after tier 2's call (checkpoint 4) and right after
tier 1's call (checkpoint 2), all tiers throwing. -/
theorem oracle_cancellation_amended_witness :
    (1 : Nat) ≤ 4 ∧
    (getTrackBPMWithGemini true (some 4) .throwT .throwT .throwT).outcome =
      .noEstimate ∧
    (∀ i ∈ (getTrackBPMWithGemini true (some 4) .throwT .throwT .throwT).calls,
      2 * i ≤ 4) ∧
    ((getTrackBPMWithGemini true (some 2) .throwT .throwT .throwT).outcome =
        .noEstimate ∧
      2 ∉ (getTrackBPMWithGemini true (some 2) .throwT .throwT .throwT).calls ∧
      3 ∉ (getTrackBPMWithGemini true (some 2) .throwT .throwT .throwT).calls) :=
  ⟨by decide,
    ((oracle_cancellation_amended .throwT .throwT .throwT 4).2.1 (by decide)).2.2.2
      (fun _ => by decide) (fun h => absurd h (by decide)) (by decide),
    ((oracle_cancellation_amended .throwT .throwT .throwT 4).2.1 (by decide)).2.1,
    (oracle_cancellation_amended .throwT .throwT .throwT 2).2.2 (by decide) (by decide)⟩

end Sporkify
